import Mathlib

/-!
# Verification of the JSON-stat flattening engine and derived-metrics layer

Shallow embedding of the core data-transformation code of the
`job-market-dashboard` repository:

* `parseJsonStat` (src/src/api/statfin.ts) — the dimension index resolver;
* the flattening transform inside `executeQuery`
  (src/src/components/SandboxSection.tsx);
* the year-over-year computation `yoyData` and the axis-bound computation
  `yAxisDomain` of `TrendChart` (src/src/components/TrendsSection.tsx) and of
  `EmploymentChart` (unnamed chart component);
* the `getNiceNumber` axis helper (src/src/components/TrendsSection.tsx).

JavaScript numbers are modelled as rationals (`ℚ`), JS objects holding
dynamic keys as association lists in insertion order (JS objects preserve
string-key insertion order, and assignment to an existing key overwrites the
value in place), and a JS runtime crash (TypeError on reading a property of
`undefined`) as an `Option` failure.
-/

namespace JobMarket

/-- Association-list lookup, first match wins (JS property read). -/
def lookupStr {α : Type} : List (String × α) → String → Option α
  | [], _ => none
  | (k, v) :: rest, key => if k = key then some v else lookupStr rest key

/-- Lookup with a default (JS `x || dflt` / `?? dflt` patterns on maps). -/
def lookupD {α : Type} (m : List (String × α)) (k : String) (dflt : α) : α :=
  (lookupStr m k).getD dflt

/-! ## Raw JSON-stat2 input (the `JsonStatResponse` TypeScript type) -/

/-- `dimension[id].category` of a JSON-stat2 response: a code→position map
and a code→label map, each an ordered JS object. -/
structure RawCategory where
  index : List (String × Int)
  label : List (String × String)
deriving Repr, DecidableEq

/-- `dimension[id]` of a JSON-stat2 response. -/
structure RawDimension where
  label : String
  category : RawCategory
deriving Repr, DecidableEq

/-- The JSON-stat2 response shape consumed by `parseJsonStat`:
`{ id, size, dimension, value }`. -/
structure JsonStatResponse where
  id : List String
  size : List Nat
  dimension : List (String × RawDimension)
  value : List ℚ
deriving Repr, DecidableEq

/-! ## Dimension index resolver (`parseJsonStat`, statfin.ts lines 84–105)

```ts
for (const dimId of data.id) {
  const dim = data.dimension[dimId];
  dimensions[dimId] = Object.keys(dim.category.index).sort(
    (a, b) => dim.category.index[a] - dim.category.index[b]
  );
  labels[dimId] = dim.category.label;
}
```

`Array.prototype.sort` with a comparator is a stable sort (ES2019);
we model it as a stable insertion sort by the key `dim.category.index[·]`.
If `dimId` is absent from `data.dimension`, the JS code throws a `TypeError`
when reading `.category` of `undefined`; this is modelled as `none`. -/

/-- The sort key used by the comparator: `dim.category.index[code]`. -/
def idxOf (index : List (String × Int)) (c : String) : Int :=
  (lookupStr index c).getD 0

/-- Stable insertion of one element into a list sorted by `key`. -/
def insertByKey (key : String → Int) (x : String) : List String → List String
  | [] => [x]
  | y :: ys => if key x ≤ key y then x :: y :: ys else y :: insertByKey key x ys

/-- Stable sort by `key` (models JS stable `sort` with a numeric comparator). -/
def sortByKey (key : String → Int) : List String → List String
  | [] => []
  | x :: xs => insertByKey key x (sortByKey key xs)

/-- `Object.keys(dim.category.index).sort((a,b) => index[a] - index[b])`. -/
def sortKeysByIdx (index : List (String × Int)) : List String :=
  sortByKey (idxOf index) (index.map Prod.fst)

/-- The parsed result of `parseJsonStat`:
`{ dimensions, values, labels }`. -/
structure ParsedStat where
  dimensions : List (String × List String)
  values : List ℚ
  labels : List (String × List (String × String))
deriving Repr, DecidableEq

/-- The loop body of `parseJsonStat` over `data.id`, accumulating the
`dimensions` and `labels` maps; `none` models the TypeError thrown when an
id of `data.id` is absent from `data.dimension`. -/
def parseDims (dimension : List (String × RawDimension)) :
    List String →
    Option (List (String × List String) × List (String × List (String × String)))
  | [] => some ([], [])
  | dimId :: rest =>
    match lookupStr dimension dimId with
    | none => none
    | some dim =>
      match parseDims dimension rest with
      | none => none
      | some (ds, ls) =>
        some ((dimId, sortKeysByIdx dim.category.index) :: ds,
              (dimId, dim.category.label) :: ls)

/-- `parseJsonStat` (statfin.ts lines 84–105). -/
def parseJsonStat (data : JsonStatResponse) : Option ParsedStat :=
  match parseDims data.dimension data.id with
  | none => none
  | some (ds, ls) => some { dimensions := ds, values := data.value, labels := ls }

/-! ## Flattening engine (the transform inside `executeQuery`,
SandboxSection.tsx lines 230–293) -/

/-- One output record of the transform: `{ period, [key]: number }`.
The dynamic numeric keys are held as an association list in JS
insertion order. -/
structure SandboxRow where
  period : String
  cells : List (String × ℚ)
deriving Repr, DecidableEq

instance : Inhabited SandboxRow := ⟨{ period := "", cells := [] }⟩

/-- JS object assignment `row[k] = v`: overwrites in place if `k` is
already a key, otherwise appends (insertion order preserved). -/
def setCell (cells : List (String × ℚ)) (k : String) (v : ℚ) :
    List (String × ℚ) :=
  match cells with
  | [] => [(k, v)]
  | (k', v') :: rest => if k' = k then (k, v) :: rest else (k', v') :: setCell rest k v

/-- Reading a cell back (`row[k]`). -/
def getCell (cells : List (String × ℚ)) (k : String) : Option ℚ :=
  lookupStr cells k

/-- Running a sequence of JS assignments `row[k] = v` on an initially
period-only row. -/
def buildCells (ps : List (String × ℚ)) : List (String × ℚ) :=
  ps.foldl (fun cs p => setCell cs p.1 p.2) []

/-- `parsed.labels[d]?.[code] || code` — label lookup with fallback to the
code when the dimension or code is missing or the label is falsy (`""`). -/
def labelOf (labels : List (String × List (String × String)))
    (d code : String) : String :=
  match lookupStr labels d with
  | none => code
  | some m =>
    match lookupStr m code with
    | none => code
    | some s => if s = "" then code else s

/-- `parsed.values[i] ?? 0` — out-of-range (or missing) reads become `0`. -/
def valAt (values : List ℚ) (i : Nat) : ℚ := values.getD i 0

/-- The index-decoding loop of the 3+-dimension branch:
starting from `remaining = combo`, for each dimension from last to first
`indices.unshift(remaining % size)` and `remaining = ⌊remaining / size⌋`.
Returns the decoded index list and the final `remaining`. -/
def decodeCombo (sizes : List Nat) (combo : Nat) : List Nat × Nat :=
  match sizes with
  | [] => ([], combo)
  | s :: rest =>
    let (ind, rem) := decodeCombo rest combo
    (rem % s :: ind, rem / s)

/-- `buildKey` of the 3+-dimension branch: slash-joined labels of the
category codes selected by `indices` in the other dimensions `ds`. -/
def buildKey (parsed : ParsedStat) (ds : List String) (indices : List Nat) :
    String :=
  String.intercalate " / " ((ds.zip indices).map fun p =>
    let codes := lookupD parsed.dimensions p.1 []
    labelOf parsed.labels p.1 (codes.getD p.2 ""))

/-- The synthesized key of the 2-other-dimension branch:
`dim1Values.length > 1 ? `${label2} (${label1})` : label2`. -/
def key2 (parsed : ParsedStat) (d1 d2 : String) (dim1Len : Nat)
    (c1 c2 : String) : String :=
  let label1 := labelOf parsed.labels d1 c1
  let label2 := labelOf parsed.labels d2 c2
  if 1 < dim1Len then label2 ++ " (" ++ label1 ++ ")" else label2

/-- The assignment sequence of the 1-other-dimension branch for the row of
period index `pIdx`: `row[label] = values[pIdx * len + vIdx] ?? 0`. -/
def pairs1 (parsed : ParsedStat) (d : String) (pIdx : Nat) :
    List (String × ℚ) :=
  let dimValues := lookupD parsed.dimensions d []
  (List.range dimValues.length).map fun vIdx =>
    (labelOf parsed.labels d (dimValues.getD vIdx ""),
     valAt parsed.values (pIdx * dimValues.length + vIdx))

/-- The assignment sequence of the 2-other-dimension branch for the row of
period index `pIdx` (nested `forEach` over both other dimensions):
`row[key] = values[pIdx * (a*b) + i1*b + i2] ?? 0`. -/
def pairs2 (parsed : ParsedStat) (d1 d2 : String) (pIdx : Nat) :
    List (String × ℚ) :=
  let dim1Values := lookupD parsed.dimensions d1 []
  let dim2Values := lookupD parsed.dimensions d2 []
  ((List.range dim1Values.length).map fun i1 =>
    (List.range dim2Values.length).map fun i2 =>
      (key2 parsed d1 d2 dim1Values.length
         (dim1Values.getD i1 "") (dim2Values.getD i2 ""),
       valAt parsed.values
         (pIdx * (dim1Values.length * dim2Values.length)
           + i1 * dim2Values.length + i2))).flatten

/-- The assignment sequence of the 3+-dimension branch for the row of
period index `pIdx`: for each `combo < totalCombos`,
`row[buildKey(indices)] = values[pIdx * totalCombos + combo] ?? 0`. -/
def pairsN (parsed : ParsedStat) (ds : List String) (pIdx : Nat) :
    List (String × ℚ) :=
  let dimSizes := ds.map fun d => (lookupD parsed.dimensions d []).length
  let totalCombos := dimSizes.foldl (· * ·) 1
  (List.range totalCombos).map fun combo =>
    (buildKey parsed ds (decodeCombo dimSizes combo).1,
     valAt parsed.values (pIdx * totalCombos + combo))

/-- The flattening transform of `executeQuery`
(SandboxSection.tsx lines 230–293): one row per time period, with the
0-, 1-, 2- and 3+-other-dimension branches of the source. -/
def executeTransform (parsed : ParsedStat) (timeDimCode : String) :
    List SandboxRow :=
  let periods := lookupD parsed.dimensions timeDimCode []
  let otherDims := (parsed.dimensions.map Prod.fst).filter
    (fun d => d ≠ timeDimCode)
  match otherDims with
  | [d] =>
    (List.range periods.length).map fun pIdx =>
      { period := periods.getD pIdx ""
        cells := buildCells (pairs1 parsed d pIdx) }
  | [d1, d2] =>
    (List.range periods.length).map fun pIdx =>
      { period := periods.getD pIdx ""
        cells := buildCells (pairs2 parsed d1 d2 pIdx) }
  | [] =>
    (List.range periods.length).map fun pIdx =>
      { period := periods.getD pIdx ""
        cells := [("value", valAt parsed.values pIdx)] }
  | ds =>
    (List.range periods.length).map fun pIdx =>
      { period := periods.getD pIdx ""
        cells := buildCells (pairsN parsed ds pIdx) }

/-- The two source steps run in sequence:
`const parsed = parseJsonStat(response)` followed by the transform
(SandboxSection.tsx lines 230–293). -/
def runSandbox (data : JsonStatResponse) (timeDimCode : String) :
    Option (List SandboxRow) :=
  (parseJsonStat data).map (fun parsed => executeTransform parsed timeDimCode)

/-! ## Derived metrics layer — year-over-year

`yoyData` of `TrendChart` (TrendsSection.tsx lines 63–91) and `yoyData` of
`EmploymentChart` (unnamed chart component, second revision).  A row value
read back from a chart data point is `some q` when the stored value is a
number (`typeof v === 'number'`) and `none` when absent or non-numeric. -/

/-- Per-cell YoY arithmetic of `TrendChart.yoyData`
(TrendsSection.tsx lines 76–86):
percentage-point difference for rates, relative percent change with the
zero-reference → 0 policy for counts, 0 when either value is non-numeric. -/
def trendYoyCell (isRate : Bool) (currentVal yearAgoVal : Option ℚ) : ℚ :=
  match currentVal, yearAgoVal with
  | some c, some y =>
    if isRate then c - y else if y = 0 then 0 else (c - y) / y * 100
  | _, _ => 0

/-- `TrendChart.yoyData` (TrendsSection.tsx lines 63–91):
`data.slice(periodsBack).map((current, index) => …)` pairing each output
row with `yearAgo = data[index]`, writing one `metricPrefix_yoy_region`
cell per selected region; `[]` when `hasEnoughData` fails. -/
def trendYoy (data : List SandboxRow) (selectedRegions : List String)
    (pfx : String) (isRate : Bool) (periodsBack : Nat) :
    List SandboxRow :=
  if data.length ≤ periodsBack then []
  else
    (List.range (data.length - periodsBack)).map fun i =>
      let current := data.getD (periodsBack + i) default
      let yearAgo := data.getD i default
      { period := current.period
        cells := buildCells (selectedRegions.map fun r =>
          (pfx ++ "_yoy_" ++ r,
           trendYoyCell isRate
             (getCell current.cells (pfx ++ "_" ++ r))
             (getCell yearAgo.cells (pfx ++ "_" ++ r)))) }

/-- Per-cell YoY arithmetic of `EmploymentChart.yoyData`
(unnamed chart component lines 245–258): early return 0 when either value
is non-numeric, then pp difference for rates or relative percent change
with the zero-reference → 0 policy for counts. -/
def employmentYoyCell (isRate : Bool) (currentVal yearAgoVal : Option ℚ) : ℚ :=
  match currentVal, yearAgoVal with
  | some c, some y =>
    if isRate then c - y else if y = 0 then 0 else (c - y) / y * 100
  | _, _ => 0

/-- `EmploymentChart.yoyData` (unnamed chart component lines 235–260):
fixed 12-period lag, guarded by `data.length < 13`, producing
`{ period, yoyValue }` records. -/
def employmentYoy (data : List SandboxRow) (dataKey : String)
    (isRate : Bool) : List (String × ℚ) :=
  if data.length < 13 then []
  else
    (List.range (data.length - 12)).map fun i =>
      let current := data.getD (12 + i) default
      let yearAgo := data.getD i default
      (current.period,
       employmentYoyCell isRate (getCell current.cells dataKey)
         (getCell yearAgo.cells dataKey))

/-! ## Axis scaling helpers -/

/-- `Math.floor(Math.log10 |q|)` for a positive rational, computed exactly:
the unique `n` with `10 ^ n ≤ q < 10 ^ (n + 1)`. -/
def ilog10 (q : ℚ) : ℤ :=
  if 1 ≤ q then (Nat.log 10 ⌊q⌋₊ : ℤ) else -(Nat.clog 10 ⌈q⁻¹⌉₊ : ℤ)

/-- `getNiceNumber` (TrendsSection.tsx lines 106–125): snap a magnitude to
the nearest value of the form `{1,2,5,10} · 10 ^ n`, rounding up when
`roundUp` and to the nearest band otherwise; `0` maps to `0`. -/
def getNiceNumber (value : ℚ) (roundUp : Bool) : ℚ :=
  if value = 0 then 0
  else
    let exponent : ℤ := ilog10 |value|
    let fraction : ℚ := value / 10 ^ exponent
    let niceFraction : ℚ :=
      if roundUp then
        if fraction ≤ 1 then 1
        else if fraction ≤ 2 then 2
        else if fraction ≤ 5 then 5
        else 10
      else
        if fraction < 3 / 2 then 1
        else if fraction < 3 then 2
        else if fraction < 7 then 5
        else 10
    niceFraction * 10 ^ exponent

/-- The min/max scan shared by the `yAxisDomain` computations: `none` when
no numeric value is found (`min === Infinity`). -/
def minMax : List ℚ → Option (ℚ × ℚ)
  | [] => none
  | v :: vs => some (vs.foldl min v, vs.foldl max v)

/-- The zero-based ("absolute") branch of `yAxisDomain`
(SandboxSection.tsx lines 1146–1149 and the unnamed chart component lines
306–308): `[0, Math.ceil(max * 1.1)]`. -/
def zeroBasedDomain (vals : List ℚ) : Option (ℚ × ℚ) :=
  match minMax vals with
  | none => none
  | some (_, mx) => some (0, (⌈mx * (11 / 10)⌉ : ℤ))

/-- The YoY-mode branch of `TrendChart.yAxisDomain`
(TrendsSection.tsx lines 147–159): symmetric nice bounds when the data
straddles zero, otherwise independently rounded padded bounds clamped at 0. -/
def trendYoyDomain (vals : List ℚ) : Option (ℚ × ℚ) :=
  match minMax vals with
  | none => none
  | some (mn, mx) =>
    if mn < 0 ∧ 0 < mx then
      let absMax := max |mn| |mx|
      let niceMax := getNiceNumber (absMax * (11 / 10)) true
      some (-niceMax, niceMax)
    else
      let range := mx - mn
      let padding := range * (1 / 10)
      let niceMin : ℚ :=
        if 0 ≤ mn then 0 else -getNiceNumber |mn - padding| true
      let niceMax : ℚ :=
        if mx ≤ 0 then 0 else getNiceNumber (mx + padding) true
      some (niceMin, niceMax)

/-- The YoY-mode branch of `EmploymentChart.yAxisDomain`
(unnamed chart component lines 293–304): tenth-rounded padded bounds,
symmetric when the data straddles zero. -/
def employmentYoyDomain (vals : List ℚ) : Option (ℚ × ℚ) :=
  match minMax vals with
  | none => none
  | some (mn, mx) =>
    let range := mx - mn
    let padding := max (range * (3 / 20)) (1 / 2)
    if mn < 0 ∧ 0 < mx then
      let absMax := max |mn| |mx|
      let niceAbsMax : ℚ := (⌈(absMax + padding) * 10⌉ : ℤ) / 10
      some (-niceAbsMax, niceAbsMax)
    else
      some ((⌊(mn - padding) * 10⌋ : ℤ) / 10, (⌈(mx + padding) * 10⌉ : ℤ) / 10)

/-! ## Spec-side definition for the addressing claims

The specification describes the intended offset as the row-major linear
index of the full coordinate under the declared dimension order.  This
definition follows the spec's words (`Σ_i index_i · Π_{j>i} size_j`) and is
compared against the offsets the code computes. -/

/-- Row-major linear index of coordinate `coords` in a box of the given
`sizes` (first coordinate slowest-varying). -/
def linearIndex : List Nat → List Nat → Nat
  | _ :: ss, c :: cs => c * ss.prod + linearIndex ss cs
  | _, _ => 0

/-! ## Concrete inputs used by scenario claims and counterexamples -/

/-- A dimension whose category codes are their own labels, indexed in list
order. -/
def mkDim (codes : List String) : RawDimension :=
  { label := "dim"
    category :=
      { index := codes.enum.map fun p => (p.2, (p.1 : Int))
        label := codes.map fun c => (c, c) } }

/-- Scenario A input: `id=["time","gender"]`, `size=[2,2]`,
`value=[10,20,30,40]`. -/
def scenarioA : JsonStatResponse :=
  { id := ["time", "gender"], size := [2, 2]
    dimension := [("time", mkDim ["2023M01", "2023M02"]),
                  ("gender", mkDim ["M", "F"])]
    value := [10, 20, 30, 40] }

/-- Scenario B input: as A but only category `M` selected upstream. -/
def scenarioB : JsonStatResponse :=
  { id := ["time", "gender"], size := [2, 1]
    dimension := [("time", mkDim ["2023M01", "2023M02"]),
                  ("gender", mkDim ["M"])]
    value := [10, 30] }

/-- An input whose declared dimension order puts the time dimension second
(gender slowest-varying), with the value array encoded row-major per that
declared order. -/
def genderFirstInput : JsonStatResponse :=
  { id := ["gender", "time"], size := [2, 2]
    dimension := [("gender", mkDim ["M", "F"]),
                  ("time", mkDim ["2023M01", "2023M02"])]
    value := [10, 20, 30, 40] }

/-- Scenario A's dimensions with a value array of the wrong length
(1 instead of the declared 2·2 = 4). -/
def mismatchedInput : JsonStatResponse :=
  { id := ["time", "gender"], size := [2, 2]
    dimension := [("time", mkDim ["2023M01", "2023M02"]),
                  ("gender", mkDim ["M", "F"])]
    value := [10] }

/-- Scenario A's dimensions with an arbitrary value array. -/
def scenarioAWith (vs : List ℚ) : JsonStatResponse :=
  { id := ["time", "gender"], size := [2, 2]
    dimension := [("time", mkDim ["2023M01", "2023M02"]),
                  ("gender", mkDim ["M", "F"])]
    value := vs }

/-- An input whose single dimension declares the non-contiguous category
index values `{A ↦ 0, B ↦ 2}`. -/
def nonContiguousInput : JsonStatResponse :=
  { id := ["d"], size := [2]
    dimension := [("d", { label := "dim"
                          category := { index := [("A", 0), ("B", 2)]
                                        label := [("A", "A"), ("B", "B")] } })]
    value := [1, 2] }

/-- A 3-dimensional parsed table (time + two other dimensions) used to
instantiate the general addressing theorems. -/
def parsedThreeDim : ParsedStat :=
  { dimensions := [("time", ["2023M01", "2023M02"]),
                   ("g", ["M", "F"]),
                   ("a", ["x", "y"])]
    values := [1, 2, 3, 4, 5, 6, 7, 8]
    labels := [("time", [("2023M01", "2023M01"), ("2023M02", "2023M02")]),
               ("g", [("M", "Miehet"), ("F", "Naiset")]),
               ("a", [("x", "X"), ("y", "Y")])] }

/-! # Theorems -/

/-! ## Association-list and assignment-sequence lemmas -/

theorem lookupStr_eq_some_of_mem {α : Type} {ps : List (String × α)}
    {k : String} {v : α} (hnd : (ps.map Prod.fst).Nodup)
    (hmem : (k, v) ∈ ps) : lookupStr ps k = some v := by
  induction ps with
  | nil => cases hmem
  | cons p rest ih =>
    obtain ⟨k1, v1⟩ := p
    rcases List.mem_cons.mp hmem with h | h
    · cases h
      simp [lookupStr]
    · have hk : k1 ≠ k := by
        intro he
        exact (List.nodup_cons.mp hnd).1
          (he ▸ (List.mem_map.mpr ⟨(k, v), h, rfl⟩))
      simp only [lookupStr, if_neg hk]
      exact ih (List.nodup_cons.mp hnd).2 h

theorem setCell_append {cells : List (String × ℚ)} {k : String} (v : ℚ)
    (h : k ∉ cells.map Prod.fst) : setCell cells k v = cells ++ [(k, v)] := by
  induction cells with
  | nil => rfl
  | cons c rest ih =>
    obtain ⟨k1, v1⟩ := c
    have h1 : k1 ≠ k := by
      intro he
      exact h (by simp [he])
    simp only [setCell, if_neg h1, List.cons_append, List.cons.injEq, true_and]
    exact ih fun hm => h (by simp at hm ⊢; exact Or.inr hm)

theorem foldl_setCell_eq (ps : List (String × ℚ)) :
    ∀ acc : List (String × ℚ),
      (∀ p ∈ ps, p.1 ∉ acc.map Prod.fst) →
      (ps.map Prod.fst).Nodup →
      ps.foldl (fun cs p => setCell cs p.1 p.2) acc = acc ++ ps := by
  induction ps with
  | nil => intro acc _ _; simp
  | cons p rest ih =>
    intro acc hdisj hnd
    have hset : setCell acc p.1 p.2 = acc ++ [(p.1, p.2)] :=
      setCell_append _ (hdisj p (List.mem_cons_self _ _))
    have hndc := List.nodup_cons.mp hnd
    have hstep := ih (acc ++ [(p.1, p.2)]) ?_ hndc.2
    · simp only [List.foldl_cons, hset, hstep, List.append_assoc,
        List.singleton_append]
    · intro q hq
      simp only [List.map_append, List.mem_append, List.map_cons,
        List.map_nil, List.mem_singleton]
      rintro (h | h)
      · exact hdisj q (List.mem_cons_of_mem _ hq) h
      · exact hndc.1 (h ▸ List.mem_map.mpr ⟨q, hq, rfl⟩)

theorem buildCells_eq {ps : List (String × ℚ)}
    (hnd : (ps.map Prod.fst).Nodup) : buildCells ps = ps := by
  have := foldl_setCell_eq ps [] (by simp) hnd
  simpa [buildCells] using this

theorem getCell_buildCells {ps : List (String × ℚ)} {k : String} {v : ℚ}
    (hnd : (ps.map Prod.fst).Nodup) (hmem : (k, v) ∈ ps) :
    getCell (buildCells ps) k = some v := by
  rw [getCell, buildCells_eq hnd]
  exact lookupStr_eq_some_of_mem hnd hmem

theorem fst_mem_of_mem_setCell {cells : List (String × ℚ)} {k : String}
    {v : ℚ} {kv : String × ℚ} (h : kv ∈ setCell cells k v) :
    kv.1 = k ∨ kv.1 ∈ cells.map Prod.fst := by
  induction cells with
  | nil =>
    simp only [setCell, List.mem_singleton] at h
    exact Or.inl (by rw [h])
  | cons c rest ih =>
    obtain ⟨k1, v1⟩ := c
    simp only [setCell] at h
    simp only [List.map_cons, List.mem_cons]
    by_cases he : k1 = k
    · rw [if_pos he] at h
      rcases List.mem_cons.mp h with h | h
      · exact Or.inl (by rw [h])
      · exact Or.inr (Or.inr (List.mem_map.mpr ⟨kv, h, rfl⟩))
    · rw [if_neg he] at h
      rcases List.mem_cons.mp h with h | h
      · exact Or.inr (Or.inl (by rw [h]))
      · rcases ih h with h | h
        · exact Or.inl h
        · exact Or.inr (Or.inr h)

theorem fst_mem_of_mem_foldl_setCell (ps : List (String × ℚ)) :
    ∀ (acc : List (String × ℚ)) (kv : String × ℚ),
      kv ∈ ps.foldl (fun cs p => setCell cs p.1 p.2) acc →
      kv.1 ∈ acc.map Prod.fst ∨ kv.1 ∈ ps.map Prod.fst := by
  induction ps with
  | nil => intro acc kv h; exact Or.inl (List.mem_map.mpr ⟨kv, h, rfl⟩)
  | cons p rest ih =>
    intro acc kv h
    rcases ih (setCell acc p.1 p.2) kv h with h | h
    · rw [List.mem_map] at h
      obtain ⟨q, hq, hqe⟩ := h
      rcases fst_mem_of_mem_setCell hq with h | h
      · exact Or.inr (by simp [← hqe, h])
      · exact Or.inl (hqe ▸ h)
    · exact Or.inr (by simp at h ⊢; exact Or.inr h)

theorem fst_mem_of_mem_buildCells {ps : List (String × ℚ)}
    {kv : String × ℚ} (h : kv ∈ buildCells ps) :
    kv.1 ∈ ps.map Prod.fst := by
  rcases fst_mem_of_mem_foldl_setCell ps [] kv h with h | h
  · simp at h
  · exact h

/-! ## Mixed-radix decoding lemmas -/

theorem foldl_mul_eq_prod (l : List ℕ) :
    ∀ a : ℕ, l.foldl (· * ·) a = a * l.prod := by
  induction l with
  | nil => intro a; simp
  | cons x xs ih =>
    intro a
    simp only [List.foldl_cons, ih (a * x), List.prod_cons, mul_assoc]

theorem decodeCombo_linearIndex (sizes : List ℕ) :
    ∀ combo : ℕ,
      linearIndex sizes (decodeCombo sizes combo).1 = combo % sizes.prod ∧
      (decodeCombo sizes combo).2 = combo / sizes.prod := by
  induction sizes with
  | nil => intro combo; simp [decodeCombo, linearIndex, Nat.mod_one]
  | cons s rest ih =>
    intro combo
    obtain ⟨h1, h2⟩ := ih combo
    simp only [decodeCombo, linearIndex, List.prod_cons]
    constructor
    · rw [h1, h2, mul_comm s rest.prod, Nat.mod_mul]
      ring
    · rw [h2, Nat.div_div_eq_div_mul, mul_comm rest.prod s]

/-! ## Evaluation lemmas for the axis helpers -/

theorem ilog10_eq {q : ℚ} {n : ℕ} (h1 : 1 ≤ q) (hl : (10 : ℚ) ^ n ≤ q)
    (hu : q < 10 ^ (n + 1)) : ilog10 q = n := by
  rw [ilog10, if_pos h1]
  have h0 : (0 : ℚ) ≤ q := le_trans zero_le_one h1
  have hfl : 10 ^ n ≤ ⌊q⌋₊ := Nat.le_floor (by exact_mod_cast hl)
  have hfu : ⌊q⌋₊ < 10 ^ (n + 1) := by
    rw [Nat.floor_lt h0]
    exact_mod_cast hu
  rw [Nat.log_eq_of_pow_le_of_lt_pow hfl hfu]

theorem getNiceNumber_132_10 : getNiceNumber (132 / 10) true = 20 := by
  have habs : |(132 / 10 : ℚ)| = 132 / 10 := by
    rw [abs_of_pos]
    norm_num
  have he : ilog10 |(132 / 10 : ℚ)| = 1 := by
    rw [habs]
    exact_mod_cast ilog10_eq (by norm_num) (by norm_num) (by norm_num)
  rw [getNiceNumber, if_neg (by norm_num : ¬(132 / 10 : ℚ) = 0)]
  simp only [he, zpow_one]
  rw [if_pos trivial]
  rw [if_neg (by norm_num), if_pos (by norm_num)]
  norm_num

theorem getNiceNumber_77_10 : getNiceNumber (77 / 10) true = 10 := by
  have habs : |(77 / 10 : ℚ)| = 77 / 10 := by
    rw [abs_of_pos]
    norm_num
  have he : ilog10 |(77 / 10 : ℚ)| = 0 := by
    rw [habs]
    exact_mod_cast ilog10_eq (by norm_num) (by norm_num) (by norm_num)
  rw [getNiceNumber, if_neg (by norm_num : ¬(77 / 10 : ℚ) = 0)]
  simp only [he, zpow_zero]
  rw [if_pos trivial]
  rw [if_neg (by norm_num), if_neg (by norm_num), if_neg (by norm_num)]
  norm_num

/-! ## C1 — two-other-dimension addressing and Scenario A -/

/-- C1: for a parsed StatTable whose declared order is time followed by two
other dimensions with category lists `Cs1`, `Cs2` (sizes `a`, `b`), the
flattened row for time index `t` assigns the synthesized key of category
pair `(i, j)` the value `values[t*a*b + i*b + j]`; and Scenario A flattens
to `[{period: "2023M01", M: 10, F: 20}, {period: "2023M02", M: 30, F: 40}]`. -/
theorem C1_two_dim_addressing
    (tc d1 d2 : String) (P Cs1 Cs2 : List String) (vs : List ℚ)
    (lbls : List (String × List (String × String)))
    (parsed : ParsedStat)
    (h1 : d1 ≠ tc) (h2 : d2 ≠ tc) (h12 : d1 ≠ d2)
    (hparsed : parsed =
      { dimensions := [(tc, P), (d1, Cs1), (d2, Cs2)], values := vs
        labels := lbls })
    (t i j : ℕ) (ht : t < P.length) (hi : i < Cs1.length) (hj : j < Cs2.length)
    (hkeys : ((pairs2 parsed d1 d2 t).map Prod.fst).Nodup) :
    (∃ row, (executeTransform parsed tc).get? t = some row ∧
      getCell row.cells
          (key2 parsed d1 d2 Cs1.length (Cs1.getD i "") (Cs2.getD j ""))
        = some (valAt vs
            (t * (Cs1.length * Cs2.length) + i * Cs2.length + j))) ∧
    runSandbox scenarioA "time" =
      some [{ period := "2023M01", cells := [("M", 10), ("F", 20)] },
            { period := "2023M02", cells := [("M", 30), ("F", 40)] }] := by
  subst hparsed
  refine ⟨?_, by decide⟩
  have htc1 : tc ≠ d1 := Ne.symm h1
  have htc2 : tc ≠ d2 := Ne.symm h2
  have hD1 : lookupD
      ([(tc, P), (d1, Cs1), (d2, Cs2)] : List (String × List String)) d1 []
      = Cs1 := by
    simp [lookupD, lookupStr, htc1]
  have hD2 : lookupD
      ([(tc, P), (d1, Cs1), (d2, Cs2)] : List (String × List String)) d2 []
      = Cs2 := by
    simp [lookupD, lookupStr, htc2, h12]
  have hDt : lookupD
      ([(tc, P), (d1, Cs1), (d2, Cs2)] : List (String × List String)) tc []
      = P := by
    simp [lookupD, lookupStr]
  have hfilter : (([(tc, P), (d1, Cs1), (d2, Cs2)]
        : List (String × List String)).map Prod.fst).filter
      (fun d => d ≠ tc) = [d1, d2] := by
    simp [List.filter, h1, h2]
  have hmem : (key2 ⟨[(tc, P), (d1, Cs1), (d2, Cs2)], vs, lbls⟩ d1 d2
        Cs1.length (Cs1.getD i "") (Cs2.getD j ""),
      valAt vs (t * (Cs1.length * Cs2.length) + i * Cs2.length + j)) ∈
      pairs2 ⟨[(tc, P), (d1, Cs1), (d2, Cs2)], vs, lbls⟩ d1 d2 t := by
    rw [pairs2]
    simp only [hD1, hD2]
    refine List.mem_flatten.mpr ⟨_, List.mem_map.mpr
      ⟨i, List.mem_range.mpr hi, rfl⟩, ?_⟩
    exact List.mem_map.mpr ⟨j, List.mem_range.mpr hj, rfl⟩
  refine ⟨⟨P.getD t "",
      buildCells (pairs2 ⟨[(tc, P), (d1, Cs1), (d2, Cs2)], vs, lbls⟩ d1 d2 t)⟩,
    ?_, ?_⟩
  · rw [executeTransform]
    simp only [hfilter, hDt]
    rw [List.get?_map, List.get?_range ht]
    rfl
  · exact getCell_buildCells hkeys hmem

/-- Witness for C1 at a concrete 3-dimensional input: the cell of period
index 1, category pair (0, 1) holds `values[1*(2*2) + 0*2 + 1] = 6`. -/
theorem C1_two_dim_addressing_witness :
    (∃ row, (executeTransform parsedThreeDim "time").get? 1 = some row ∧
      getCell row.cells
          (key2 parsedThreeDim "g" "a" (["M", "F"] : List String).length
            ((["M", "F"] : List String).getD 0 "")
            ((["x", "y"] : List String).getD 1 ""))
        = some (valAt [1, 2, 3, 4, 5, 6, 7, 8]
            (1 * ((["M", "F"] : List String).length *
              (["x", "y"] : List String).length)
              + 0 * (["x", "y"] : List String).length + 1))) ∧
    runSandbox scenarioA "time" =
      some [{ period := "2023M01", cells := [("M", 10), ("F", 20)] },
            { period := "2023M02", cells := [("M", 30), ("F", 40)] }] :=
  C1_two_dim_addressing "time" "g" "a" ["2023M01", "2023M02"] ["M", "F"]
    ["x", "y"] [1, 2, 3, 4, 5, 6, 7, 8] parsedThreeDim.labels parsedThreeDim
    (by decide) (by decide) (by decide) rfl 1 0 1
    (by decide) (by decide) (by decide) (by decide)

/-! ## C2 — addressing when the time dimension is not declared first -/

/-- Counterexample to C2: on `genderFirstInput` the declared order is
`["gender", "time"]`, so the row-major linear index of the full coordinate
(gender = F (1), time = 2023M01 (0)) is `1*2 + 0 = 2`, holding value `30` —
yet the code, which always treats the time dimension as outermost, assigns
the F-cell of period 2023M01 the value `20`.  The combination enumeration
is not reordered to match the declared order. -/
theorem C2_time_not_first_counterexample :
    genderFirstInput.id = ["gender", "time"] ∧
    runSandbox genderFirstInput "time" =
      some [{ period := "2023M01", cells := [("M", 10), ("F", 20)] },
            { period := "2023M02", cells := [("M", 30), ("F", 40)] }] ∧
    linearIndex [2, 2] [1, 0] = 2 ∧
    valAt genderFirstInput.value 2 = 30 ∧
    (20 : ℚ) ≠ 30 := by
  decide

/-- C2 as amended: the code's flat offset — `pIdx * totalCombos + combo`,
with `totalCombos` the left-fold product of the other-dimension sizes and
`combo` decoded by the unshift loop — equals the row-major linear index of
the full coordinate `(pIdx, indices…)` only under the declared order that
puts the time dimension first (outermost); the enumeration is never
reordered for other declared orders (see the counterexample). -/
theorem C2_time_first_offset (sizes : List ℕ) (timeLen pIdx combo : ℕ)
    (h : combo < sizes.prod) :
    pIdx * sizes.foldl (· * ·) 1 + combo =
      linearIndex (timeLen :: sizes) (pIdx :: (decodeCombo sizes combo).1) := by
  have hd := (decodeCombo_linearIndex sizes combo).1
  rw [linearIndex, hd, Nat.mod_eq_of_lt h, foldl_mul_eq_prod sizes 1, one_mul]

/-- Witness for C2's amended addressing identity at sizes `[2, 3, 4]`,
period index 3, combination 17. -/
theorem C2_time_first_offset_witness :
    3 * ([2, 3, 4] : List ℕ).foldl (· * ·) 1 + 17 =
      linearIndex (5 :: [2, 3, 4]) (3 :: (decodeCombo [2, 3, 4] 17).1) :=
  C2_time_first_offset [2, 3, 4] 5 3 17 (by decide)

/-! ## C3 — row count -/

/-- C3: for every StatTable whose parsed dimension map contains the time
dimension with category list `cats`, the flattened output has exactly one
row per time category — `cats.length` rows — in every arity case
(0, 1, 2, or 3+ other dimensions). -/
theorem C3_row_count (parsed : ParsedStat) (tc : String) (cats : List String)
    (h : lookupStr parsed.dimensions tc = some cats) :
    (executeTransform parsed tc).length = cats.length := by
  have hD : lookupD parsed.dimensions tc [] = cats := by simp [lookupD, h]
  simp only [executeTransform, hD]
  split <;> simp

/-- Witness for C3 at a concrete 3-dimensional input with 2 time periods. -/
theorem C3_row_count_witness :
    (executeTransform parsedThreeDim "time").length =
      (["2023M01", "2023M02"] : List String).length :=
  C3_row_count parsedThreeDim "time" ["2023M01", "2023M02"] (by decide)

/-! ## C4 — no value-array length validation -/

/-- Counterexample to C4: `mismatchedInput` declares sizes `[2, 2]` but
carries only one value; the claim says the transformation must fail with a
`ValueArrayMismatch` error, yet the code succeeds and silently fills the
out-of-range cells with `0`. -/
theorem C4_no_length_check_counterexample :
    mismatchedInput.value.length ≠ mismatchedInput.size.prod ∧
    runSandbox mismatchedInput "time" =
      some [{ period := "2023M01", cells := [("M", 10), ("F", 0)] },
            { period := "2023M02", cells := [("M", 0), ("F", 0)] }] := by
  decide

/-- C4 as amended: the transformation performs no length validation at all —
for a value array of any length over Scenario A's dimensions it succeeds,
reading every cell as `values[idx] ?? 0` (out-of-range reads become `0`). -/
theorem C4_silent_zero_fill (vs : List ℚ) :
    runSandbox (scenarioAWith vs) "time" =
      some [{ period := "2023M01"
              cells := [("M", vs.getD 0 0), ("F", vs.getD 1 0)] },
            { period := "2023M02"
              cells := [("M", vs.getD 2 0), ("F", vs.getD 3 0)] }] := rfl

/-! ## C5 — the resolver performs no validation -/

/-- Counterexample to C5: a dimension whose declared category index values
are `{A ↦ 0, B ↦ 2}` — not a contiguous `0..N-1` permutation — is accepted
by `parseJsonStat` without any `MalformedDimension` error. -/
theorem C5_no_validation_counterexample :
    (nonContiguousInput.dimension.map fun d => d.2.category.index.map Prod.snd)
      = [[0, 2]] ∧
    parseJsonStat nonContiguousInput =
      some { dimensions := [("d", ["A", "B"])], values := [1, 2]
             labels := [("d", [("A", "A"), ("B", "B")])] } := by
  decide

/-- C5 as amended: `parseJsonStat` validates nothing about category
indices — it succeeds exactly when every declared id is present in the
dimension map (sorting whatever index values it finds, contiguous or not),
and an absent id causes a runtime TypeError (modelled as `none`), not a
structured `MalformedDimension` error. -/
theorem C5_parse_succeeds_iff_ids_present (data : JsonStatResponse) :
    (parseJsonStat data).isSome = true ↔
      ∀ i ∈ data.id, (lookupStr data.dimension i).isSome = true := by
  have key : ∀ ids : List String,
      (parseDims data.dimension ids).isSome = true ↔
        ∀ i ∈ ids, (lookupStr data.dimension i).isSome = true := by
    intro ids
    induction ids with
    | nil => simp [parseDims]
    | cons i rest ih =>
      simp only [parseDims, List.forall_mem_cons]
      cases hl : lookupStr data.dimension i with
      | none => simp [hl]
      | some dim =>
        cases hp : parseDims data.dimension rest with
        | none =>
          rw [hp] at ih
          simp only [Option.isSome_none, Bool.false_eq_true, false_iff] at ih
          simp [hl, ih]
        | some pr =>
          rw [hp] at ih
          simp only [Option.isSome_some] at ih
          obtain ⟨ds, ls⟩ := pr
          simp [hl, ← ih]
  have k2 := key data.id
  rw [parseJsonStat]
  cases hp : parseDims data.dimension data.id with
  | none =>
    rw [hp] at k2
    simpa using k2
  | some pr =>
    obtain ⟨ds, ls⟩ := pr
    rw [hp] at k2
    simpa using k2

/-! ## Sorting lemmas for the dimension index resolver -/

theorem insertByKey_perm (key : String → Int) (x : String)
    (l : List String) : (insertByKey key x l).Perm (x :: l) := by
  induction l with
  | nil => exact List.Perm.refl _
  | cons y ys ih =>
    rw [insertByKey]
    by_cases h : key x ≤ key y
    · rw [if_pos h]
    · rw [if_neg h]
      exact (ih.cons y).trans (List.Perm.swap x y ys)

theorem sortByKey_perm (key : String → Int) (l : List String) :
    (sortByKey key l).Perm l := by
  induction l with
  | nil => exact List.Perm.refl _
  | cons x xs ih =>
    rw [sortByKey]
    exact (insertByKey_perm key x _).trans (ih.cons x)

theorem insertByKey_pairwise (key : String → Int) (x : String)
    {l : List String}
    (h : List.Pairwise (fun a b => key a ≤ key b) l) :
    List.Pairwise (fun a b => key a ≤ key b) (insertByKey key x l) := by
  induction l with
  | nil => simp [insertByKey]
  | cons y ys ih =>
    rw [insertByKey]
    obtain ⟨hy, hys⟩ := List.pairwise_cons.mp h
    by_cases hxy : key x ≤ key y
    · rw [if_pos hxy]
      refine List.pairwise_cons.mpr ⟨?_, h⟩
      intro z hz
      rcases List.mem_cons.mp hz with rfl | hz
      · exact hxy
      · exact le_trans hxy (hy z hz)
    · rw [if_neg hxy]
      refine List.pairwise_cons.mpr ⟨?_, ih hys⟩
      intro z hz
      rcases List.mem_cons.mp ((insertByKey_perm key x ys).subset hz)
        with rfl | hz2
      · exact le_of_not_le hxy
      · exact hy z hz2

theorem sortByKey_pairwise (key : String → Int) (l : List String) :
    List.Pairwise (fun a b => key a ≤ key b) (sortByKey key l) := by
  induction l with
  | nil => simp [sortByKey]
  | cons x xs ih => exact insertByKey_pairwise key x ih

theorem insertByKey_congr {k1 k2 : String → Int} (x : String)
    (l : List String) (h : ∀ a ∈ x :: l, k1 a = k2 a) :
    insertByKey k1 x l = insertByKey k2 x l := by
  induction l with
  | nil => rfl
  | cons y ys ih =>
    have hx := h x (List.mem_cons_self _ _)
    have hy := h y (List.mem_cons_of_mem _ (List.mem_cons_self _ _))
    rw [insertByKey, insertByKey, hx, hy]
    by_cases hc : k2 x ≤ k2 y
    · rw [if_pos hc, if_pos hc]
    · rw [if_neg hc, if_neg hc, ih ?_]
      intro a ha
      rcases List.mem_cons.mp ha with rfl | ha
      · exact hx
      · exact h a (List.mem_cons_of_mem _ (List.mem_cons_of_mem _ ha))

theorem sortByKey_congr {k1 k2 : String → Int} (l : List String)
    (h : ∀ a ∈ l, k1 a = k2 a) : sortByKey k1 l = sortByKey k2 l := by
  induction l with
  | nil => rfl
  | cons x xs ih =>
    rw [sortByKey, sortByKey,
      ih fun a ha => h a (List.mem_cons_of_mem _ ha)]
    apply insertByKey_congr
    intro a ha
    rcases List.mem_cons.mp ha with rfl | ha
    · exact h a (List.mem_cons_self _ _)
    · exact h a (List.mem_cons_of_mem _ ((sortByKey_perm k2 xs).subset ha))

theorem lookupStr_perm {α : Type} {l1 l2 : List (String × α)}
    (hp : l1.Perm l2) (k : String) :
    (l1.map Prod.fst).Nodup → lookupStr l1 k = lookupStr l2 k := by
  induction hp with
  | nil => intro _; rfl
  | cons x p ih =>
    intro hnd
    obtain ⟨k1, v1⟩ := x
    rw [List.map_cons] at hnd
    simp only [lookupStr]
    by_cases h : k1 = k
    · rw [if_pos h, if_pos h]
    · rw [if_neg h, if_neg h]
      exact ih (List.nodup_cons.mp hnd).2
  | swap x y l =>
    intro hnd
    obtain ⟨k1, v1⟩ := x
    obtain ⟨k2, v2⟩ := y
    rw [List.map_cons, List.map_cons, List.nodup_cons] at hnd
    have hne : k2 ≠ k1 := fun he => hnd.1 (by simp [he])
    by_cases h1 : k1 = k <;> by_cases h2 : k2 = k
    · exact absurd (h2.trans h1.symm) hne
    · simp [lookupStr, h1, h2]
    · simp [lookupStr, h1, h2]
    · simp [lookupStr, h1, h2]
  | trans p1 p2 ih1 ih2 =>
    intro hnd
    exact (ih1 hnd).trans (ih2 (((p1.map Prod.fst).nodup_iff).mp hnd))

theorem sortByKey_eq_of_perm (key : String → Int) {l1 l2 : List String}
    (hp : l1.Perm l2) (hnd : l1.Nodup)
    (hinj : ∀ a ∈ l1, ∀ b ∈ l1, key a = key b → a = b) :
    sortByKey key l1 = sortByKey key l2 := by
  haveI : IsAntisymm String (fun a b => key a < key b) :=
    ⟨fun a b hab hba => absurd hba (lt_asymm hab)⟩
  have hpl1 := sortByKey_perm key l1
  have hpl2 := sortByKey_perm key l2
  apply List.eq_of_perm_of_sorted (r := fun a b => key a < key b)
  · exact hpl1.trans (hp.trans hpl2.symm)
  · have hnds : (sortByKey key l1).Nodup := hpl1.nodup_iff.mpr hnd
    refine List.Pairwise.imp_of_mem ?_
      ((sortByKey_pairwise key l1).and hnds)
    intro a b ha hb hab
    refine lt_of_le_of_ne hab.1 fun he => hab.2 ?_
    exact hinj a (hpl1.subset ha) b (hpl1.subset hb) he
  · have hnd2 : l2.Nodup := hp.nodup_iff.mp hnd
    have hnds2 : (sortByKey key l2).Nodup := hpl2.nodup_iff.mpr hnd2
    refine List.Pairwise.imp_of_mem ?_
      ((sortByKey_pairwise key l2).and hnds2)
    intro a b ha hb hab
    refine lt_of_le_of_ne hab.1 fun he => hab.2 ?_
    exact hinj a (hp.symm.subset (hpl2.subset ha))
      b (hp.symm.subset (hpl2.subset hb)) he

/-! ## C6 — category order determined by the declared index -/

/-- C6: for a dimension whose declared index map has no duplicate codes and
injective index values, the resolver outputs the category codes sorted
ascending by their declared integer index, and any reordering of the source
mapping's entries (JS object iteration order) yields the same output. -/
theorem C6_sorted_and_order_independent
    (index index2 : List (String × Int))
    (hperm : index.Perm index2)
    (hkeys : (index.map Prod.fst).Nodup)
    (hinj : ∀ a ∈ index.map Prod.fst, ∀ b ∈ index.map Prod.fst,
      idxOf index a = idxOf index b → a = b) :
    List.Pairwise (fun a b => idxOf index a ≤ idxOf index b)
      (sortKeysByIdx index) ∧
    sortKeysByIdx index2 = sortKeysByIdx index := by
  refine ⟨sortByKey_pairwise _ _, ?_⟩
  have hkeys2 : (index2.map Prod.fst).Nodup :=
    ((hperm.map Prod.fst).nodup_iff).mp hkeys
  have hidx : ∀ a, idxOf index2 a = idxOf index a := by
    intro a
    rw [idxOf, idxOf, lookupStr_perm hperm.symm a hkeys2]
  rw [sortKeysByIdx, sortKeysByIdx,
    sortByKey_congr (index2.map Prod.fst) fun a _ => hidx a]
  refine sortByKey_eq_of_perm (idxOf index) ((hperm.map Prod.fst).symm)
    hkeys2 ?_
  intro a ha b hb he
  exact hinj a ((hperm.map Prod.fst).symm.subset ha)
    b ((hperm.map Prod.fst).symm.subset hb) he

/-- Witness for C6: the mapping `{B ↦ 1, A ↦ 0}` and its reordering
`{A ↦ 0, B ↦ 1}` both resolve to `["A", "B"]`, sorted by index. -/
theorem C6_sorted_and_order_independent_witness :
    List.Pairwise (fun a b =>
        idxOf [("B", 1), ("A", 0)] a ≤ idxOf [("B", 1), ("A", 0)] b)
      (sortKeysByIdx [("B", 1), ("A", 0)]) ∧
    sortKeysByIdx [("A", 0), ("B", 1)] = sortKeysByIdx [("B", 1), ("A", 0)] :=
  C6_sorted_and_order_independent [("B", 1), ("A", 0)] [("A", 0), ("B", 1)]
    (List.Perm.swap _ _ _) (by decide) (by decide)

/-! ## C7 — two-other-dimension key synthesis and Scenario B -/

/-- C7: with exactly two other dimensions, every synthesized metric key is
`"<dim2Label> (<dim1Label>)"` when the first other dimension has more than
one category and plain `dim2Label` otherwise; and Scenario B (a single
selected gender category) yields
`[{period: "2023M01", M: 10}, {period: "2023M02", M: 30}]`. -/
theorem C7_two_dim_key_shape
    (tc d1 d2 : String) (P Cs1 Cs2 : List String) (vs : List ℚ)
    (lbls : List (String × List (String × String)))
    (parsed : ParsedStat)
    (h1 : d1 ≠ tc) (h2 : d2 ≠ tc) (h12 : d1 ≠ d2)
    (hparsed : parsed =
      { dimensions := [(tc, P), (d1, Cs1), (d2, Cs2)], values := vs
        labels := lbls }) :
    (∀ row ∈ executeTransform parsed tc, ∀ kv ∈ row.cells,
      ∃ i j, i < Cs1.length ∧ j < Cs2.length ∧
        kv.1 = if 1 < Cs1.length
          then labelOf lbls d2 (Cs2.getD j "") ++ " ("
                ++ labelOf lbls d1 (Cs1.getD i "") ++ ")"
          else labelOf lbls d2 (Cs2.getD j "")) ∧
    runSandbox scenarioB "time" =
      some [{ period := "2023M01", cells := [("M", 10)] },
            { period := "2023M02", cells := [("M", 30)] }] := by
  subst hparsed
  refine ⟨?_, by decide⟩
  have htc1 : tc ≠ d1 := Ne.symm h1
  have htc2 : tc ≠ d2 := Ne.symm h2
  have hD1 : lookupD
      ([(tc, P), (d1, Cs1), (d2, Cs2)] : List (String × List String)) d1 []
      = Cs1 := by
    simp [lookupD, lookupStr, htc1]
  have hD2 : lookupD
      ([(tc, P), (d1, Cs1), (d2, Cs2)] : List (String × List String)) d2 []
      = Cs2 := by
    simp [lookupD, lookupStr, htc2, h12]
  have hDt : lookupD
      ([(tc, P), (d1, Cs1), (d2, Cs2)] : List (String × List String)) tc []
      = P := by
    simp [lookupD, lookupStr]
  have hfilter : (([(tc, P), (d1, Cs1), (d2, Cs2)]
        : List (String × List String)).map Prod.fst).filter
      (fun d => d ≠ tc) = [d1, d2] := by
    simp [List.filter, h1, h2]
  intro row hrow kv hkv
  rw [executeTransform] at hrow
  simp only [hfilter, hDt] at hrow
  obtain ⟨pIdx, hp, hrowEq⟩ := List.mem_map.mp hrow
  rw [← hrowEq] at hkv
  have hk1 := fst_mem_of_mem_buildCells hkv
  rw [pairs2] at hk1
  simp only [hD1, hD2] at hk1
  rw [List.mem_map] at hk1
  obtain ⟨q, hq, hq1⟩ := hk1
  rw [List.mem_flatten] at hq
  obtain ⟨inner, hinner, hq2⟩ := hq
  rw [List.mem_map] at hinner
  obtain ⟨i1, hi1, hinnerEq⟩ := hinner
  rw [← hinnerEq, List.mem_map] at hq2
  obtain ⟨j1, hj1, hqEq⟩ := hq2
  refine ⟨i1, j1, List.mem_range.mp hi1, List.mem_range.mp hj1, ?_⟩
  rw [← hq1, ← hqEq]
  rfl

/-- Witness for C7 at Scenario A's parsed form extended with a second
other dimension (the concrete 3-dimensional table). -/
theorem C7_two_dim_key_shape_witness :
    (∀ row ∈ executeTransform parsedThreeDim "time", ∀ kv ∈ row.cells,
      ∃ i j, i < (["M", "F"] : List String).length ∧
        j < (["x", "y"] : List String).length ∧
        kv.1 = if 1 < (["M", "F"] : List String).length
          then labelOf parsedThreeDim.labels "a"
                  ((["x", "y"] : List String).getD j "") ++ " ("
                ++ labelOf parsedThreeDim.labels "g"
                  ((["M", "F"] : List String).getD i "") ++ ")"
          else labelOf parsedThreeDim.labels "a"
                  ((["x", "y"] : List String).getD j "")) ∧
    runSandbox scenarioB "time" =
      some [{ period := "2023M01", cells := [("M", 10)] },
            { period := "2023M02", cells := [("M", 30)] }] :=
  C7_two_dim_key_shape "time" "g" "a" ["2023M01", "2023M02"] ["M", "F"]
    ["x", "y"] [1, 2, 3, 4, 5, 6, 7, 8] parsedThreeDim.labels parsedThreeDim
    (by decide) (by decide) (by decide) rfl

/-! ## C8 — year-over-year formula -/

/-- C8: each output row `i` of the YoY computation pairs
`current = rows[periodsBack + i]` with `reference = rows[i]`; when both
values under a metric key are numeric the result is `current - reference`
for rates (5.0 → 7.5 gives exactly 2.5) and
`(current - reference) / reference * 100` for counts (100 → 150 gives
exactly 50), with a zero reference defined to give 0, never Infinity/NaN. -/
theorem C8_yoy_formula
    (data : List SandboxRow) (regions : List String) (pfx : String)
    (isRate : Bool) (pb i : ℕ) (r : String) (c y : ℚ)
    (hi : pb + i < data.length)
    (hkeys : (regions.map fun s => pfx ++ "_yoy_" ++ s).Nodup)
    (hr : r ∈ regions)
    (hc : getCell (data.getD (pb + i) default).cells (pfx ++ "_" ++ r)
      = some c)
    (hy : getCell (data.getD i default).cells (pfx ++ "_" ++ r) = some y) :
    (∃ row, (trendYoy data regions pfx isRate pb).get? i = some row ∧
      row.period = (data.getD (pb + i) default).period ∧
      getCell row.cells (pfx ++ "_yoy_" ++ r) =
        some (if isRate then c - y
              else if y = 0 then 0 else (c - y) / y * 100)) ∧
    trendYoyCell true (some (15 / 2)) (some 5) = 5 / 2 ∧
    trendYoyCell false (some 150) (some 100) = 50 ∧
    trendYoyCell false (some 50) (some 0) = 0 := by
  refine ⟨?_, by norm_num [trendYoyCell], by norm_num [trendYoyCell],
    by norm_num [trendYoyCell]⟩
  have hguard : ¬ data.length ≤ pb :=
    not_le.mpr (Nat.lt_of_le_of_lt (Nat.le_add_right pb i) hi)
  have hrange : i < data.length - pb := by omega
  have hkeys2 : ((regions.map fun r =>
      (pfx ++ "_yoy_" ++ r,
       trendYoyCell isRate
         (getCell (data.getD (pb + i) default).cells (pfx ++ "_" ++ r))
         (getCell (data.getD i default).cells (pfx ++ "_" ++ r)))).map
      Prod.fst).Nodup := by
    rw [List.map_map]
    exact hkeys
  have hmem : (pfx ++ "_yoy_" ++ r,
      trendYoyCell isRate
        (getCell (data.getD (pb + i) default).cells (pfx ++ "_" ++ r))
        (getCell (data.getD i default).cells (pfx ++ "_" ++ r))) ∈
      regions.map fun r =>
        (pfx ++ "_yoy_" ++ r,
         trendYoyCell isRate
           (getCell (data.getD (pb + i) default).cells (pfx ++ "_" ++ r))
           (getCell (data.getD i default).cells (pfx ++ "_" ++ r))) :=
    List.mem_map.mpr ⟨r, hr, rfl⟩
  refine ⟨⟨(data.getD (pb + i) default).period,
      buildCells (regions.map fun r =>
        (pfx ++ "_yoy_" ++ r,
         trendYoyCell isRate
           (getCell (data.getD (pb + i) default).cells (pfx ++ "_" ++ r))
           (getCell (data.getD i default).cells (pfx ++ "_" ++ r))))⟩,
    ?_, rfl, ?_⟩
  · rw [trendYoy, if_neg hguard, List.get?_map, List.get?_range hrange]
    rfl
  · rw [getCell_buildCells hkeys2 hmem, hc, hy]
    simp [trendYoyCell]

/-- Witness for C8 at a concrete two-row series with lag 1:
a count metric going from 100 to 150. -/
theorem C8_yoy_formula_witness :
    (∃ row, (trendYoy
        [⟨"p0", [("emp_R", 100)]⟩, ⟨"p1", [("emp_R", 150)]⟩]
        ["R"] "emp" false 1).get? 0 = some row ∧
      row.period = (([⟨"p0", [("emp_R", 100)]⟩, ⟨"p1", [("emp_R", 150)]⟩]
          : List SandboxRow).getD (1 + 0) default).period ∧
      getCell row.cells ("emp" ++ "_yoy_" ++ "R") =
        some (if false then (150 : ℚ) - 100
              else if (100 : ℚ) = 0 then 0 else ((150 : ℚ) - 100) / 100 * 100)) ∧
    trendYoyCell true (some (15 / 2)) (some 5) = 5 / 2 ∧
    trendYoyCell false (some 150) (some 100) = 50 ∧
    trendYoyCell false (some 50) (some 0) = 0 :=
  C8_yoy_formula [⟨"p0", [("emp_R", 100)]⟩, ⟨"p1", [("emp_R", 150)]⟩]
    ["R"] "emp" false 1 0 "R" 150 100 (by decide) (by decide) (by decide)
    (by decide) (by decide)

/-! ## C9 — zero-based axis bounds -/

/-- Counterexample to C9: in zero-based mode the code returns
`[0, Math.ceil(max * 1.1)]`; for the single value `12` that is `[0, 14]`,
and `14` is not the nice-round-up of `12 * 1.1` (which is `20`), so the
upper bound is not a member of `{1,2,5,10}·10ⁿ`. -/
theorem C9_not_nice_counterexample :
    zeroBasedDomain [12] = some (0, 14) ∧
    getNiceNumber ((12 : ℚ) * (11 / 10)) true = 20 ∧
    (14 : ℚ) ≠ 20 := by
  refine ⟨?_, ?_, by norm_num⟩
  · rw [zeroBasedDomain]
    simp only [minMax, List.foldl_nil]
    have hc : ⌈(12 : ℚ) * (11 / 10)⌉ = 14 := by
      rw [Int.ceil_eq_iff]
      constructor <;> norm_num
    rw [hc]
    norm_num
  · rw [show (12 : ℚ) * (11 / 10) = 132 / 10 by norm_num]
    exact getNiceNumber_132_10

/-- C9 as amended: for every non-empty value list, zero-based mode returns
`[0, ⌈max * 1.1⌉]` — the upper bound is `max * 1.1` rounded up to the next
integer (hence `≥ max * 1.1`), not to a `{1,2,5,10}·10ⁿ` nice number; in
particular `[12, 45]` yields `[0, 50]` with `50 ≥ 45 * 1.1`. -/
theorem C9_zero_based_ceil_bound (v : ℚ) (vs : List ℚ) :
    zeroBasedDomain (v :: vs) =
      some (0, ((⌈(vs.foldl max v) * (11 / 10)⌉ : ℤ) : ℚ)) ∧
    (vs.foldl max v) * (11 / 10) ≤ ((⌈(vs.foldl max v) * (11 / 10)⌉ : ℤ) : ℚ) ∧
    zeroBasedDomain [12, 45] = some (0, 50) ∧ (45 : ℚ) * (11 / 10) ≤ 50 := by
  refine ⟨rfl, Int.le_ceil _, ?_, by norm_num⟩
  rw [zeroBasedDomain]
  simp only [minMax, List.foldl_cons, List.foldl_nil]
  have hc : ⌈(45 : ℚ) * (11 / 10)⌉ = 50 := by
    rw [Int.ceil_eq_iff]
    constructor <;> norm_num
  rw [show max (12 : ℚ) 45 = 45 from by rw [max_eq_right]; norm_num, hc]
  norm_num

/-! ## C10 — uniformity across charting components -/

/-- Counterexample to C10: on the zero-straddling series `[-3, 7]` the two
chart components compute different symmetric Y-axis bounds — `TrendChart`
returns `[-10, 10]` while `EmploymentChart` returns `[-8.5, 8.5]`. -/
theorem C10_bounds_differ_counterexample :
    trendYoyDomain [-3, 7] = some (-10, 10) ∧
    employmentYoyDomain [-3, 7] = some (-(17 / 2), 17 / 2) ∧
    (some ((-10 : ℚ), (10 : ℚ)) : Option (ℚ × ℚ)) ≠ some (-(17 / 2), 17 / 2) := by
  have hmn : min (-3 : ℚ) 7 = -3 := by
    rw [min_eq_left]
    norm_num
  have hmx : max (-3 : ℚ) 7 = 7 := by
    rw [max_eq_right]
    norm_num
  have habs : max |(-3 : ℚ)| |(7 : ℚ)| = 7 := by
    rw [abs_of_nonpos (by norm_num), abs_of_nonneg (by norm_num), max_eq_right]
    norm_num
  refine ⟨?_, ?_, by simp; norm_num⟩
  · rw [trendYoyDomain]
    simp only [minMax, List.foldl_cons, List.foldl_nil, hmn, hmx]
    rw [if_pos (by constructor <;> norm_num)]
    simp only [habs]
    rw [show (7 : ℚ) * (11 / 10) = 77 / 10 from by norm_num, getNiceNumber_77_10]
  · rw [employmentYoyDomain]
    simp only [minMax, List.foldl_cons, List.foldl_nil, hmn, hmx]
    rw [if_pos (by constructor <;> norm_num)]
    simp only [habs]
    have hpad : max ((7 - -3 : ℚ) * (3 / 20)) (1 / 2) = 3 / 2 := by
      rw [max_eq_left] <;> norm_num
    rw [hpad]
    have hc : ⌈((7 : ℚ) + 3 / 2) * 10⌉ = 85 := by
      rw [Int.ceil_eq_iff]
      constructor <;> norm_num
    rw [hc]
    norm_num

/-- C10 as amended: the per-cell year-over-year arithmetic is identical
across `TrendChart` and `EmploymentChart` (percentage-point difference for
rates, relative percent change with the zero-reference policy for counts,
0 for non-numeric inputs) — but the axis bounds are not computed uniformly
(see the counterexample). -/
theorem C10_yoy_cell_agreement :
    ∀ (isRate : Bool) (cur yr : Option ℚ),
      trendYoyCell isRate cur yr = employmentYoyCell isRate cur yr := by
  intro isRate cur yr
  cases cur <;> cases yr <;> rfl

end JobMarket
